import Mathlib

/-!
Verification of the dependency-roll pipeline in `roll_dep.py`.

The Python source is shallowly embedded: every pure computation of the script
(URL derivation, log filtering and trimming, commit-message synthesis, roll-plan
construction, finalization order) becomes an executable Lean definition, with
the outputs of external commands (`git`, `gclient`) supplied as explicit inputs
or oracle functions. Python `str` values are modelled as Lean `String`
(a list of unicode scalar values, matching Python semantics for the operations
used here); Python exceptions become an explicit `PyExc` sum type.
-/

/-! ## Python string primitives

Each `py...` helper mirrors the semantics of the corresponding Python `str`
operation, working on the underlying character list. -/

/-- Python `s.startswith(pre)`. -/
def pyStartswith (s pre : String) : Bool :=
  pre.toList.isPrefixOf s.toList

/-- Python `s.endswith(suf)`. -/
def pyEndswith (s suf : String) : Bool :=
  suf.toList.isSuffixOf s.toList

/-- Decides whether `needle` occurs as a contiguous run inside `hay`. -/
def isInfixChars (needle : List Char) : List Char → Bool
  | [] => needle.isEmpty
  | c :: rest => needle.isPrefixOf (c :: rest) || isInfixChars needle rest

/-- Python `sub in s` (substring containment). -/
def pyContains (s sub : String) : Bool :=
  isInfixChars sub.toList s.toList

/-- Python `s[:n]` for a nonnegative index `n`. -/
def pyTake (s : String) (n : Nat) : String :=
  String.mk (s.toList.take n)

/-- Python `s[:-n]` for `0 < n ≤ len(s)` (used for stripping a known suffix). -/
def pyDropRight (s : String) (n : Nat) : String :=
  String.mk (s.toList.take (s.toList.length - n))

/-- Python `s[n:]` for a nonnegative index `n`. -/
def pyTakeFrom (s : String) (n : Nat) : String :=
  String.mk (s.toList.drop n)

/-- Python `s.rstrip(c)` for a single strip character. -/
def pyRstripChar (s : String) (c : Char) : String :=
  String.mk ((s.toList.reverse.dropWhile (fun d => d == c)).reverse)

/-- Python `s.rstrip()` (trailing whitespace removed). -/
def pyRstrip (s : String) : String :=
  String.mk ((s.toList.reverse.dropWhile Char.isWhitespace).reverse)

/-- Python `s.strip()` (leading and trailing whitespace removed). -/
def pyStrip (s : String) : String :=
  String.mk (((s.toList.dropWhile Char.isWhitespace).reverse.dropWhile
    Char.isWhitespace).reverse)

/-- Worker for `pySplitChar`: splits on the given character, keeping empty
parts, with `acc` the reversed current part. -/
def splitCharAux (sep : Char) : List Char → List Char → List (List Char)
  | [], acc => [acc.reverse]
  | c :: rest, acc =>
    if c == sep then acc.reverse :: splitCharAux sep rest []
    else splitCharAux sep rest (c :: acc)

/-- Python `s.split(sep)` for a one-character separator, e.g. `s.split(',')`:
`""` gives `[""]`, and empty parts are kept. -/
def pySplitChar (s : String) (sep : Char) : List String :=
  (splitCharAux sep s.toList []).map String.mk

/-- Worker for `pySplitlines`: splits on newline characters, dropping a final
empty part (Python `str.splitlines()` on newline-terminated text). -/
def splitLinesAux : List Char → List Char → List (List Char)
  | [], acc => if acc.isEmpty then [] else [acc.reverse]
  | c :: rest, acc =>
    if c == '\n' then acc.reverse :: splitLinesAux rest []
    else splitLinesAux rest (c :: acc)

/-- Python `s.splitlines()` restricted to `'\n'` line terminators, which is the
only terminator occurring in the decoded `git log` output processed here. -/
def pySplitlines (s : String) : List String :=
  (splitLinesAux s.toList []).map String.mk

/-- Worker for `pySplitlinesKeep`: like `splitLinesAux` but every part keeps
its trailing newline (Python `str.splitlines(True)`). -/
def splitKeepAux : List Char → List Char → List (List Char)
  | [], acc => if acc.isEmpty then [] else [acc.reverse]
  | c :: rest, acc =>
    if c == '\n' then (acc.reverse ++ ['\n']) :: splitKeepAux rest []
    else splitKeepAux rest (c :: acc)

/-- Python `s.splitlines(True)` restricted to `'\n'` line terminators. -/
def pySplitlinesKeep (s : String) : List String :=
  (splitKeepAux s.toList []).map String.mk

/-- Worker for `pyJoinSep`: interleaves `sep` between the given parts. -/
def joinSepChars (sep : List Char) : List (List Char) → List Char
  | [] => []
  | l :: ls =>
    match ls with
    | [] => l
    | _ :: _ => l ++ sep ++ joinSepChars sep ls

/-- Python `sep.join(parts)`. -/
def pyJoinSep (sep : String) (parts : List String) : String :=
  String.mk (joinSepChars sep.toList (parts.map String.toList))

/-- Python `''.join(parts)`. -/
def pyJoin (parts : List String) : String :=
  String.mk ((parts.map String.toList).flatten)

/-- Worker for `pyReplace`. The fuel argument starts at the length of the
subject and bounds the recursion; one unit is spent per subject position, so
the fuel can never run out on the initial call. -/
def replaceAux (pat repl : List Char) : Nat → List Char → List Char
  | _, [] => []
  | 0, s => s
  | fuel + 1, c :: rest =>
    if pat.isPrefixOf (c :: rest) then
      repl ++ replaceAux pat repl fuel ((c :: rest).drop pat.length)
    else c :: replaceAux pat repl fuel rest

/-- Python `s.replace(pat, repl)` for a nonempty pattern: replaces every
non-overlapping occurrence, scanning left to right. (The script only ever
replaces the commit-range string `head..roll_to`, which has length at least
two.) -/
def pyReplace (s pat repl : String) : String :=
  if pat.toList.isEmpty then s
  else String.mk (replaceAux pat.toList repl.toList s.toList.length s.toList)

/-- Python `l[:i]` on a list, for an index of either sign. -/
def pySliceTo (l : List α) (i : Int) : List α :=
  if 0 ≤ i then l.take i.toNat else l.take (l.length - (-i).toNat)

/-- Python `l[i:]` on a list, for an index of either sign. -/
def pySliceFrom (l : List α) (i : Int) : List α :=
  if 0 ≤ i then l.drop i.toNat else l.drop (l.length - (-i).toNat)

/-- Python `//`, floor division (`Int.fdiv`). -/
def pyFloorDiv (a b : Int) : Int :=
  Int.fdiv a b

/-- Stable insertion of `x` into `l`: `x` goes before the first strictly
greater element, hence after every equal one. -/
def insertSorted (lt : α → α → Bool) (x : α) : List α → List α
  | [] => [x]
  | y :: ys => if lt x y then x :: y :: ys else y :: insertSorted lt x ys

/-- Python `sorted(l)` for the strict order `lt`: ascending and stable. -/
def pySorted (lt : α → α → Bool) (l : List α) : List α :=
  l.foldl (fun acc x => insertSorted lt x acc) []

/-- Strict lexicographic comparison of character lists, the order Python uses
on strings (code-point comparison). -/
def charsLt : List Char → List Char → Bool
  | [], [] => false
  | [], _ :: _ => true
  | _ :: _, [] => false
  | a :: as, b :: bs => if a < b then true else if b < a then false else charsLt as bs

/-- Python `<` on strings. -/
def strLt (a b : String) : Bool :=
  charsLt a.toList b.toList

/-- Python `<` on `(str, str, str)` tuples: lexicographic on the components,
as used by `sorted(rolls.values())`. -/
def tripleLt (x y : String × String × String) : Bool :=
  strLt x.1 y.1 ||
    (x.1 == y.1 && (strLt x.2.1 y.2.1 || (x.2.1 == y.2.1 && strLt x.2.2 y.2.2)))

/-! ## Exceptions and exit codes -/

/-- The exceptions that can terminate the pipeline, tagged as in the source:
`error` is `roll_dep.Error`, `alreadyRolled` is its subclass
`AlreadyRolledError`, `calledProcess` is `subprocess2.CalledProcessError`
(an external command exited non-zero), and `nameError` is a Python `NameError`
raised when an undefined variable is evaluated. -/
inductive PyExc where
  | error (msg : String)
  | alreadyRolled (msg : String)
  | calledProcess
  | nameError (name : String)
  deriving Repr, DecidableEq

/-- The Python class name of an exception, as it would appear in a traceback
or an `isinstance` check. -/
def pyExcClassName : PyExc → String
  | .error _ => "Error"
  | .alreadyRolled _ => "AlreadyRolledError"
  | .calledProcess => "CalledProcessError"
  | .nameError _ => "NameError"

/-- Process exit code produced by `main`'s exception handling: `AlreadyRolledError`
gives 2, any other `Error` gives 1, `CalledProcessError` gives 1, and an
uncaught `NameError` makes the interpreter exit with 1. -/
def exc_exit_code : PyExc → Nat
  | .alreadyRolled _ => 2
  | .error _ => 1
  | .calledProcess => 1
  | .nameError _ => 1

/-! ## URL handling: `get_log_url` and `should_show_log` -/

/-- Matcher for the regex fragment `[^/]*\.googlesource\.com/`: at each
position, either the literal `.googlesource.com/` starts here, or the current
character is a non-slash (accepted by `[^/]`) and scanning continues. Both
repetitions of the source regex exclude the character that must follow them,
so this linear scan is exact. -/
def gsHostScan : List Char → Bool
  | [] => false
  | c :: rest =>
    ".googlesource.com/".toList.isPrefixOf (c :: rest) || (c != '/' && gsHostScan rest)

/-- Python `re.match(r'https://[^/]*\.googlesource\.com/', url)` viewed as a
boolean: a prefix of `url` is `https://`, then a run of non-`/` characters,
then `.googlesource.com/`. -/
def matchGooglesource (url : String) : Bool :=
  pyStartswith url "https://" && gsHostScan (url.toList.drop 8)

/-- Embeds `get_log_url`: a gitiles `+log` URL for `*.googlesource.com` hosts,
a `compare` URL for github (trailing slashes and a `.git` suffix stripped), and
`None` for anything else. -/
def get_log_url (upstream_url head tot : String) : Option String :=
  if matchGooglesource upstream_url then
    some (upstream_url ++ "/+log/" ++ pyTake head 12 ++ ".." ++ pyTake tot 12)
  else if pyStartswith upstream_url "https://github.com/" then
    let u := pyRstripChar upstream_url '/'
    let u := if pyEndswith u ".git" then pyDropRight u 4 else u
    some (u ++ "/compare/" ++ pyTake head 12 ++ "..." ++ pyTake tot 12)
  else none

/-- Embeds `should_show_log`: logs are skipped for the very active projects
with an upstream URL ending in `/v8/v8.git` or containing `webrtc`. -/
def should_show_log (upstream_url : String) : Bool :=
  if pyEndswith upstream_url "/v8/v8.git" then false
  else if pyContains upstream_url "webrtc" then false
  else true

/-! ## Log-line matching

`generate_commit_message` applies two regular expressions to each log line:
the author-domain strip `(?m)^(\d\d\d\d-\d\d-\d\d [^@]+)@[^ ]+( .*)$` and the
module-level `_ROLL_SUBJECT` pattern. Both are translated into deterministic
character-list matchers; every repetition in those patterns is of a character
class excluding the character that must follow, so greedy maximal munch is
exact and no backtracking is needed. -/

/-- Matches one-or-more characters satisfying `p` (a regex `X+` whose class
excludes the following character); gives the consumed run and the remainder. -/
def takeWhile1 (p : Char → Bool) : List Char → Option (List Char × List Char)
  | [] => none
  | c :: rest =>
    if p c then some (c :: rest.takeWhile p, rest.dropWhile p) else none

/-- Matches a leading `\d\d\d\d-\d\d-\d\d` date; gives its ten characters and
the remainder. -/
def splitDate : List Char → Option (List Char × List Char)
  | a :: b :: c :: d :: '-' :: e :: f :: '-' :: g :: h :: rest =>
    if a.isDigit && b.isDigit && c.isDigit && d.isDigit && e.isDigit &&
        f.isDigit && g.isDigit && h.isDigit then
      some ([a, b, c, d, '-', e, f, '-', g, h], rest)
    else none
  | _ => none

/-- One line of the author-domain strip
`re.sub(r'(?m)^(\d\d\d\d-\d\d-\d\d [^@]+)@[^ ]+( .*)$', r'\1\2', logs)`:
if the line matches, the `@domain` token after the author is removed,
otherwise the line is unchanged. The `(?m)` flag makes the sub per-line, so
applying this to each line of `logs.splitlines()` is equivalent. -/
def stripDomain (line : String) : String :=
  match splitDate line.toList with
  | none => line
  | some (date, rest) =>
    match rest with
    | ' ' :: r1 =>
      match takeWhile1 (fun c => c != '@') r1 with
      | none => line
      | some (user, r2) =>
        match r2 with
        | '@' :: r3 =>
          match takeWhile1 (fun c => c != ' ') r3 with
          | none => line
          | some (_, r4) =>
            match r4 with
            | ' ' :: _ => String.mk (date ++ ' ' :: (user ++ r4))
            | _ => line
        | _ => line
    | _ => line

/-- Regex class `[a-f0-9]`. -/
def isHexLower (c : Char) : Bool :=
  (decide ('a' ≤ c) && decide (c ≤ 'f')) || c.isDigit

/-- Consumes a literal, or fails. -/
def dropLit (pat s : List Char) : Option (List Char) :=
  if pat.isPrefixOf s then some (s.drop pat.length) else none

/-- First `_ROLL_SUBJECT` alternative:
`Roll [^ ]+ [a-f0-9]+\.\.[a-f0-9]+ \(\d+ commits\)` anchored to the end. -/
def rollSubjectAlt1 (subj : List Char) : Bool :=
  match dropLit "Roll ".toList subj with
  | none => false
  | some r1 =>
    match takeWhile1 (fun c => c != ' ') r1 with
    | none => false
    | some (_, r2) =>
      match r2 with
      | ' ' :: r3 =>
        match takeWhile1 isHexLower r3 with
        | none => false
        | some (_, r4) =>
          match r4 with
          | '.' :: '.' :: r5 =>
            match takeWhile1 isHexLower r5 with
            | none => false
            | some (_, r6) =>
              match r6 with
              | ' ' :: '(' :: r7 =>
                match takeWhile1 Char.isDigit r7 with
                | none => false
                | some (_, r8) => r8 == " commits)".toList
              | _ => false
          | _ => false
      | _ => false

/-- Embeds `_ROLL_SUBJECT.match(line)` as a boolean: a date, an author token
`[^ ]+`, then either an autoroll subject (`rollSubjectAlt1`) or the literal
`Roll recipe dependencies (trivial).`, anchored to the end of the line. -/
def rollSubjectMatch (line : String) : Bool :=
  match splitDate line.toList with
  | none => false
  | some (_, rest) =>
    match rest with
    | ' ' :: r1 =>
      match takeWhile1 (fun c => c != ' ') r1 with
      | none => false
      | some (_, r2) =>
        match r2 with
        | ' ' :: subj =>
          rollSubjectAlt1 subj || subj == "Roll recipe dependencies (trivial).".toList
        | _ => false
    | _ => false

/-! ## Commit-message synthesis: `generate_commit_message` -/

/-- The log lines of `generate_commit_message` before trivial-roll filtering:
the raw `git log` output is `rstrip`ped, domain-stripped per line, and split
into lines (`lines` in the source). -/
def logLines (git_log_output : String) : List String :=
  (pySplitlines (pyRstrip git_log_output)).map stripDomain

/-- The `cleaned_lines` of `generate_commit_message`: `logLines` with every
`_ROLL_SUBJECT` match filtered out. -/
def filtered_log_lines (git_log_output : String) : List String :=
  (logLines git_log_output).filter (fun l => !(rollSubjectMatch l))

/-- The log body emitted by `generate_commit_message`, given the entry cap and
the filtered lines: `logs = '\n'.join(cleaned_lines) + '\n'`, and if the number
of filtered lines exceeds the cap the body is re-split keeping line ends and
sliced to `lines[:log_limit//2] + ['(...)\n'] + lines[-log_limit//2:]`
(the source's lines 147 to 153; in Python, `-log_limit//2` is
`(-log_limit)//2`, floor division). -/
def trimmed_log (log_limit : Int) (cleaned_lines : List String) : String :=
  let logs := pyJoinSep "\n" cleaned_lines ++ "\n"
  if log_limit < (cleaned_lines.length : Int) then
    let lines := pySplitlinesKeep logs
    pyJoin (pySliceTo lines (pyFloorDiv log_limit 2) ++ ["(...)\n"] ++
      pySliceFrom lines (pyFloorDiv (-log_limit) 2))
  else logs

/-- The header built by `generate_commit_message`:
`'Roll %s/ %s (%d commit%s%s)\n\n'` with the nine-character short range, the
count of unfiltered commits, a plural `s` for more than one commit, and the
trivial-roll clause when any line was filtered. -/
def gcm_header (dependency head roll_to git_log_output : String) : String :=
  let lines := logLines git_log_output
  let cleaned_lines := filtered_log_lines git_log_output
  let nb_commits := lines.length
  let rolls := nb_commits - cleaned_lines.length
  "Roll " ++ dependency ++ "/ " ++ (pyTake head 9 ++ ".." ++ pyTake roll_to 9) ++
    " (" ++ toString nb_commits ++ " commit" ++
    (if nb_commits > 1 then "s" else "") ++
    (if rolls != 0 then "; " ++ toString rolls ++ " trivial rolls" else "") ++
    ")\n\n"

/-- The part of `log_section` that `generate_commit_message` always appends:
the browsable URL (when `get_log_url` gives one) and the literal `git log`
command line, with the full commit range replaced by its short form
(`log_section.replace(commit_range, commit_range_for_header)`). -/
def log_preamble (upstream_url head roll_to : String) : String :=
  let commit_range := head ++ ".." ++ roll_to
  let commit_range_for_header := pyTake head 9 ++ ".." ++ pyTake roll_to 9
  pyReplace
    ((match get_log_url upstream_url head roll_to with
      | some u => u ++ "\n\n"
      | none => "") ++
     ("$ git log " ++ commit_range ++
      " --date=short --no-merges --format=\x27%ad %ae %s\x27\n"))
    commit_range commit_range_for_header

/-- Embeds `generate_commit_message`. External command outputs appear as
inputs: `upstream_url_raw` is the stdout of `git config remote.origin.url`
(stripped by the source before use) and `git_log_output` the stdout of the
`git log` command. The filtered log body is appended only when `--no-log` is
unset and `should_show_log` allows it. -/
def generate_commit_message (dependency head roll_to : String) (no_log : Bool)
    (log_limit : Int) (upstream_url_raw git_log_output : String) : String :=
  let commit_range := head ++ ".." ++ roll_to
  let commit_range_for_header := pyTake head 9 ++ ".." ++ pyTake roll_to 9
  let upstream_url := pyStrip upstream_url_raw
  let log_url := get_log_url upstream_url head roll_to
  let lines := logLines git_log_output
  let cleaned_lines := filtered_log_lines git_log_output
  let nb_commits := lines.length
  let rolls := nb_commits - cleaned_lines.length
  let header := "Roll " ++ dependency ++ "/ " ++ commit_range_for_header ++
    " (" ++ toString nb_commits ++ " commit" ++
    (if nb_commits > 1 then "s" else "") ++
    (if rolls != 0 then "; " ++ toString rolls ++ " trivial rolls" else "") ++
    ")\n\n"
  let log_section :=
    (match log_url with
     | some u => u ++ "\n\n"
     | none => "") ++
    ("$ git log " ++ commit_range ++
     " --date=short --no-merges --format=\x27%ad %ae %s\x27\n")
  let log_section := pyReplace log_section commit_range commit_range_for_header
  let log_section :=
    if !no_log && should_show_log upstream_url then
      log_section ++ trimmed_log log_limit cleaned_lines
    else log_section
  header ++ log_section

/-! ## Aggregated commit message: `gen_commit_msg` and reviewer handling -/

/-- Embeds `gen_commit_msg`: a `Rolling <N> dependencies` banner when several
log sections are aggregated, the sections joined by blank lines, the
`Created with` footer, and the optional reviewer and bug trailers (Python
truthiness: `None`, the empty list and the empty string all suppress their
trailer). -/
def gen_commit_msg (logs : List String) (cmdline : String)
    (reviewers : Option (List String)) (bug : Option String) : String :=
  let commit_msg :=
    if logs.length > 1 then
      "Rolling " ++ toString logs.length ++ " dependencies\n\n"
    else ""
  let commit_msg := commit_msg ++ pyJoinSep "\n\n" logs
  let commit_msg := commit_msg ++ "\nCreated with:\n  " ++ cmdline ++ "\n"
  let commit_msg := commit_msg ++
    (match reviewers with
     | some (r :: rs) => "R=" ++ pyJoinSep "," (r :: rs) ++ "\n"
     | _ => "")
  commit_msg ++
    (match bug with
     | some b => if b.toList.isEmpty then "" else "\nBug: " ++ b ++ "\n"
     | none => "")

/-- Embeds the reviewer normalization in `main`: the repeatable `-r` values
are comma-split and flattened, and every entry without an `@` gets
`@chromium.org` appended. -/
def flatten_reviewers (args_reviewer : List String) : List String :=
  ((args_reviewer.map (fun r => pySplitChar r ',')).flatten).map
    (fun r => if pyContains r "@" then r else r ++ "@chromium.org")

/-! ## Revision resolution: `get_submodule_rev` and `calculate_roll`

Python resolves a variable name at run time against the local scope and the
module-level scope; evaluating a name bound in neither raises `NameError`.
`get_submodule_rev(submodule_path)` evaluates the name `submodule`, and the
submodule branch of `calculate_roll(full_dir, dependency, roll_to)` evaluates
the name `submodule_path`; neither name is bound locally or at module level,
so these name lookups are modelled explicitly. -/

/-- The names bound at module level in `roll_dep.py` (imports, constants,
classes and functions). Neither `submodule` nor `submodule_path` is among
them. -/
def module_scope : List String :=
  ["argparse", "itertools", "os", "re", "subprocess2", "sys", "tempfile",
   "NEED_SHELL", "GCLIENT_PATH", "_ROLL_SUBJECT", "Error", "AlreadyRolledError",
   "check_output", "check_call", "return_code", "is_pristine", "get_log_url",
   "should_show_log", "gclient", "generate_commit_message", "is_submoduled",
   "get_submodule_rev", "calculate_roll", "gen_commit_msg", "finalize", "main"]

/-- The local scope of `get_submodule_rev`: its only parameter. -/
def get_submodule_rev_scope : List String :=
  ["submodule_path"]

/-- The local scope of `calculate_roll` at the point where the submodule
branch evaluates `submodule_path`: only the three parameters are bound. -/
def calculate_roll_scope : List String :=
  ["full_dir", "dependency", "roll_to"]

/-- Embeds `get_submodule_rev`. Its body runs
`check_output(['git', 'submodule', 'status', submodule])` where `submodule` is
an unbound name, so evaluation raises `NameError`; were the name bound, the
result would be `rev.split(' ')[0][1:]` of the `git submodule status` output
(supplied by the `submodule_status` oracle). -/
def get_submodule_rev (submodule_status : String → String)
    (submodule_path : String) : Except PyExc String :=
  if get_submodule_rev_scope.contains "submodule" ||
      module_scope.contains "submodule" then
    Except.ok (pyTakeFrom
      (((pySplitChar (submodule_status submodule_path) ' ').headD "")) 1)
  else Except.error (PyExc.nameError "submodule")

/-- Embeds `calculate_roll`. The oracles stand for the external commands:
`getdep dependency` is the stdout of `gclient getdep -r <dependency>` and
`rev_parse r` the stripped stdout of `git rev-parse r` after the fetch (and,
for `origin/HEAD`, the remote set-head refresh). In a submoduled workspace the
code evaluates the unbound name `submodule_path`, raising `NameError`; in a
manifest workspace an empty pinned revision raises `Error('... is unpinned.')`,
and otherwise the `(head, roll_to)` pair is returned. -/
def calculate_roll (is_submoduled : Bool) (getdep rev_parse : String → String)
    (full_dir dependency roll_to : String) : Except PyExc (String × String) :=
  let head? : Except PyExc String :=
    if is_submoduled then
      if calculate_roll_scope.contains "submodule_path" ||
          module_scope.contains "submodule_path" then
        Except.ok ""
      else Except.error (PyExc.nameError "submodule_path")
    else Except.ok (getdep dependency)
  match head? with
  | Except.error e => Except.error e
  | Except.ok head =>
    if head.toList.isEmpty then
      Except.error (PyExc.error (dependency ++ " is unpinned."))
    else Except.ok (head, rev_parse roll_to)

/-! ## Roll-plan construction in `main` -/

/-- Worker for `build_rolls`: the per-dependency loop body of `main`.
`ndeps` is `len(dependencies)` for the whole invocation; `resolve d` is the
`(head, roll_to)` pair `calculate_roll` returned for `d` and `fullDirOf d` its
resolved directory. A dependency already at the target is fatal only when it
is the single requested dependency; otherwise it is skipped. -/
def build_rolls_go (ndeps : Nat) (resolve : String → String × String)
    (fullDirOf : String → String) :
    List String → Except PyExc (List (String × String × String × String))
  | [] => Except.ok []
  | d :: rest =>
    let head := (resolve d).1
    let roll_to := (resolve d).2
    if roll_to == head then
      if ndeps == 1 then
        Except.error (PyExc.alreadyRolled "No revision to roll!")
      else build_rolls_go ndeps resolve fullDirOf rest
    else
      match build_rolls_go ndeps resolve fullDirOf rest with
      | Except.ok rs => Except.ok ((d, head, roll_to, fullDirOf d) :: rs)
      | Except.error e => Except.error e

/-- The roll plan `main` gathers before modifying anything: an association of
dependency path to `(head, roll_to, full_dir)`, built over the sorted
dependency list, with already-at-target dependencies skipped (or fatal in the
single-dependency case). Directory lookups are assumed to succeed; a failing
`calculate_roll` is outside this model's oracles. -/
def build_rolls (deps : List String) (resolve : String → String × String)
    (fullDirOf : String → String) :
    Except PyExc (List (String × String × String × String)) :=
  build_rolls_go deps.length resolve fullDirOf deps

/-! ## Finalization: `finalize` -/

/-- The external operations `finalize` issues, in order. -/
inductive GitOp where
  | checkout (roll_to full_dir : String)
  | addDeps (cwd : String)
  | writeMsgFile (msg : String)
  | commit (cwd : String)
  | removeMsgFile
  deriving Repr, DecidableEq

/-- Outcomes of the external commands during finalization: whether each
`git checkout` (by target revision and directory), the `git add DEPS`, and the
`git commit` exit zero. -/
structure GitEnv where
  checkoutOk : String → String → Bool
  addOk : Bool
  commitOk : Bool

/-- The checkout loop of `finalize` over the sorted values: returns the
checkout operations attempted and whether all of them succeeded; the loop
stops at the first failing checkout (`check_call` raises). -/
def finalize_checkouts (env : GitEnv) :
    List (String × String × String) → List GitOp × Bool
  | [] => ([], true)
  | (_, roll_to, full_dir) :: rest =>
    if env.checkoutOk roll_to full_dir then
      let r := finalize_checkouts env rest
      (GitOp.checkout roll_to full_dir :: r.1, r.2)
    else ([GitOp.checkout roll_to full_dir], false)

/-- Embeds `finalize`: checks out every `(head, roll_to, full_dir)` value of
the roll plan in `sorted(rolls.values())` order, then stages `DEPS`, writes
the commit message to a temporary file, commits with it, and removes the file.
A failing external command raises `CalledProcessError` and stops the
sequence. Gives the operation trace and the outcome. -/
def finalize (env : GitEnv) (commit_msg current_dir : String)
    (rolls : List (String × String × String × String)) :
    List GitOp × Except PyExc Unit :=
  let vals := pySorted tripleLt (rolls.map (fun kv => kv.2))
  let r := finalize_checkouts env vals
  if !r.2 then (r.1, Except.error PyExc.calledProcess)
  else if !env.addOk then
    (r.1 ++ [GitOp.addDeps current_dir], Except.error PyExc.calledProcess)
  else if !env.commitOk then
    (r.1 ++ [GitOp.addDeps current_dir, GitOp.writeMsgFile commit_msg,
      GitOp.commit current_dir], Except.error PyExc.calledProcess)
  else
    (r.1 ++ [GitOp.addDeps current_dir, GitOp.writeMsgFile commit_msg,
      GitOp.commit current_dir, GitOp.removeMsgFile], Except.ok ())

/-- Selects the checkout operations of a trace, as `(roll_to, full_dir)`
pairs. -/
def checkoutPairs (ops : List GitOp) : List (String × String) :=
  ops.filterMap (fun op =>
    match op with
    | GitOp.checkout roll_to full_dir => some (roll_to, full_dir)
    | _ => none)

/-- Recognizes a commit operation. -/
def isCommitOp : GitOp → Bool
  | GitOp.commit _ => true
  | _ => false

/-! ## General helper lemmas -/

/-- Two strings with the same characters are equal. -/
theorem strExt {a b : String} (h : a.toList = b.toList) : a = b := by
  cases a
  cases b
  exact congrArg String.mk h

/-- Characters of an appended string. -/
theorem strToList_append (a b : String) : (a ++ b).toList = a.toList ++ b.toList := by
  cases a
  cases b
  rfl

/-- Characters of `String.mk`. -/
theorem strToList_mk (l : List Char) : (String.mk l).toList = l := rfl

/-- Taking at most the first block of an append stays in the first block. -/
theorem take_append_le (l₁ l₂ : List α) (n : Nat) (h : n ≤ l₁.length) :
    (l₁ ++ l₂).take n = l₁.take n := by
  induction l₁ generalizing n with
  | nil => simp_all
  | cons a as ih =>
    cases n with
    | zero => simp
    | succ m => simp only [List.cons_append, List.take_succ_cons]
                exact congrArg (List.cons a) (ih m (Nat.le_of_succ_le_succ h))

/-- Dropping at most the first block of an append keeps the second intact. -/
theorem drop_append_le (l₁ l₂ : List α) (n : Nat) (h : n ≤ l₁.length) :
    (l₁ ++ l₂).drop n = l₁.drop n ++ l₂ := by
  induction l₁ generalizing n with
  | nil => simp_all
  | cons a as ih =>
    cases n with
    | zero => simp
    | succ m => simp only [List.cons_append, List.drop_succ_cons]
                exact ih m (Nat.le_of_succ_le_succ h)

/-- Taking beyond the first block of an append takes all of it. -/
theorem take_append_ge (l₁ l₂ : List α) (n : Nat) (h : l₁.length ≤ n) :
    (l₁ ++ l₂).take n = l₁ ++ l₂.take (n - l₁.length) := by
  induction l₁ generalizing n with
  | nil => simp
  | cons a as ih =>
    cases n with
    | zero => exact absurd h (by simp)
    | succ m => simp only [List.cons_append, List.take_succ_cons, List.length_cons]
                rw [ih m (Nat.le_of_succ_le_succ h)]
                simp [Nat.succ_sub_succ]

/-- Membership is preserved by stable insertion. -/
theorem mem_insertSorted (lt : α → α → Bool) (x a : α) (l : List α) :
    a ∈ insertSorted lt x l ↔ a = x ∨ a ∈ l := by
  induction l with
  | nil => simp [insertSorted]
  | cons y ys ih =>
    by_cases h : lt x y
    · simp [insertSorted, h]
    · simp only [insertSorted, h, if_neg, Bool.not_eq_true, List.mem_cons, ih]
      tauto

/-- Membership is preserved by `pySorted`. -/
theorem mem_pySorted (lt : α → α → Bool) (a : α) (l : List α) :
    a ∈ pySorted lt l ↔ a ∈ l := by
  suffices h : ∀ acc, a ∈ l.foldl (fun acc x => insertSorted lt x acc) acc ↔ a ∈ l ∨ a ∈ acc by
    simpa [pySorted] using h []
  induction l with
  | nil => simp
  | cons y ys ih =>
    intro acc
    simp only [List.foldl_cons, ih, mem_insertSorted, List.mem_cons]
    tauto

/-! ## Claim C3 -/

/-- C3: the claim says `calculate_roll` locates the pinned revision of a
submoduled workspace transparently, returning the submodule's recorded
revision. The code cannot: its submodule branch evaluates the unbound name
`submodule_path` (and `get_submodule_rev` the unbound name `submodule`), so
every submoduled run raises `NameError` instead of producing a revision. -/
theorem submodule_branch_raises_name_error
    (getdep rev_parse submodule_status : String → String)
    (full_dir dependency roll_to submodule_path : String) :
    calculate_roll true getdep rev_parse full_dir dependency roll_to =
      Except.error (PyExc.nameError "submodule_path") ∧
    get_submodule_rev submodule_status submodule_path =
      Except.error (PyExc.nameError "submodule") :=
  ⟨rfl, rfl⟩

/-! ## Claim C5 -/

/-- Worker lemma: with more than one (or zero) requested dependencies, the
gathering loop never fails; it keeps exactly the dependencies whose resolved
target differs from their current revision. -/
theorem build_rolls_go_ne_one (ndeps : Nat) (h : ndeps ≠ 1)
    (resolve : String → String × String) (fullDirOf : String → String) :
    ∀ deps : List String,
      build_rolls_go ndeps resolve fullDirOf deps =
        Except.ok ((deps.filter (fun d => !((resolve d).2 == (resolve d).1))).map
          (fun d => (d, (resolve d).1, (resolve d).2, fullDirOf d))) := by
  intro deps
  induction deps with
  | nil => rfl
  | cons d rest ih =>
    have hb : (ndeps == 1) = false := by
      simpa using h
    cases hd : (resolve d).2 == (resolve d).1 with
    | true => simp [build_rolls_go, hd, hb, ih, List.filter_cons]
    | false => simp [build_rolls_go, hd, ih, List.filter_cons]

/-- C5: a dependency already at its target revision is fatal exactly in the
single-dependency case. With one requested path, `main` raises
`AlreadyRolledError` (the error the spec calls `AlreadyAtTargetError`) and the
handler maps it to exit code 2; with several requested paths, dependencies
whose current and target revisions agree are omitted from the roll plan and
gathering succeeds. -/
theorem already_at_target_single_fatal_multi_skip
    (resolve : String → String × String) (fullDirOf : String → String) :
    (∀ d : String, (resolve d).2 = (resolve d).1 →
      build_rolls [d] resolve fullDirOf =
        Except.error (PyExc.alreadyRolled "No revision to roll!") ∧
      exc_exit_code (PyExc.alreadyRolled "No revision to roll!") = 2) ∧
    (∀ deps : List String, 2 ≤ deps.length →
      build_rolls deps resolve fullDirOf =
        Except.ok ((deps.filter (fun d => !((resolve d).2 == (resolve d).1))).map
          (fun d => (d, (resolve d).1, (resolve d).2, fullDirOf d)))) := by
  constructor
  · intro d hd
    refine ⟨?_, rfl⟩
    simp [build_rolls, build_rolls_go, hd]
  · intro deps hlen
    exact build_rolls_go_ne_one deps.length (by omega) resolve fullDirOf deps

/-- Witness for C5: a single dependency already at `aaaa1111` fails with
`AlreadyRolledError`, while a two-dependency roll with one dependency already
at target keeps only the other dependency. -/
theorem already_at_target_witness :
    build_rolls ["src/a"] (fun _ => ("aaaa1111", "aaaa1111")) (fun d => "/w/" ++ d) =
      Except.error (PyExc.alreadyRolled "No revision to roll!") ∧
    build_rolls ["src/a", "src/b"]
        (fun d => if d == "src/a" then ("aaaa1111", "aaaa1111") else ("bbbb2222", "cccc3333"))
        (fun d => "/w/" ++ d) =
      Except.ok [("src/b", "bbbb2222", "cccc3333", "/w/src/b")] :=
  ⟨((already_at_target_single_fatal_multi_skip _ _).1 "src/a" rfl).1,
   ((already_at_target_single_fatal_multi_skip
      (fun d => if d == "src/a" then ("aaaa1111", "aaaa1111") else ("bbbb2222", "cccc3333"))
      (fun d => "/w/" ++ d)).2 ["src/a", "src/b"] (by decide)).trans rfl⟩

/-! ## Claim C7 -/

/-- C7: reviewer arguments are comma-split and flattened; an entry containing
`@` is kept as is, an entry without one gets `@chromium.org` appended; and the
documented example produces the trailer `R=joe@chromium.org,jane@example.com`
in the final commit message. -/
theorem reviewer_flatten_default_domain :
    (∀ (args : List String) (p : String),
      p ∈ (args.map (fun r => pySplitChar r ',')).flatten →
        (pyContains p "@" = true → p ∈ flatten_reviewers args) ∧
        (pyContains p "@" = false → p ++ "@chromium.org" ∈ flatten_reviewers args)) ∧
    flatten_reviewers ["joe", "jane@example.com"] =
      ["joe@chromium.org", "jane@example.com"] ∧
    pyContains
      (gen_commit_msg ["Roll dep/ aaaa..bbbb (1 commit)"] "roll-dep dep"
        (some (flatten_reviewers ["joe", "jane@example.com"])) none)
      "R=joe@chromium.org,jane@example.com\n" = true := by
  refine ⟨?_, by decide, by decide⟩
  intro args p hp
  constructor
  · intro h
    have hm := List.mem_map_of_mem
      (fun r => if pyContains r "@" then r else r ++ "@chromium.org") hp
    simpa [flatten_reviewers, h] using hm
  · intro h
    have hm := List.mem_map_of_mem
      (fun r => if pyContains r "@" then r else r ++ "@chromium.org") hp
    simpa [flatten_reviewers, h] using hm

/-- Witness for C7: a bare name gets the default domain, a full address is
kept unchanged. -/
theorem reviewer_flatten_default_domain_witness :
    "joe@chromium.org" ∈ flatten_reviewers ["joe"] ∧
    "jane@example.com" ∈ flatten_reviewers ["jane@example.com"] :=
  ⟨(reviewer_flatten_default_domain.1 ["joe"] "joe" (by decide)).2 (by decide),
   (reviewer_flatten_default_domain.1 ["jane@example.com"] "jane@example.com"
     (by decide)).1 (by decide)⟩

/-! ## Claim C8 -/

/-- A URL with the github prefix cannot match the googlesource pattern: after
`https://` the scan walks `github.com` (all non-slash, no match of
`.googlesource.com/` at any position) and stops at the `/`. -/
theorem github_prefix_not_googlesource (url : String)
    (h : pyStartswith url "https://github.com/" = true) :
    matchGooglesource url = false := by
  obtain ⟨t, ht⟩ := List.isPrefixOf_iff_prefix.mp h
  have hurl : url.toList = "https://".toList ++ ("github.com/".toList ++ t) := by
    rw [← ht, show "https://github.com/".toList =
      "https://".toList ++ "github.com/".toList from by decide, List.append_assoc]
  have hscan : gsHostScan ("github.com/".toList ++ t) = false := by
    rw [show "github.com/".toList =
      ['g', 'i', 't', 'h', 'u', 'b', '.', 'c', 'o', 'm', '/'] from by decide]
    simp [gsHostScan, List.isPrefixOf]
  unfold matchGooglesource
  rw [hurl, List.drop_left' (by decide : ("https://".toList).length = 8), hscan,
    Bool.and_false]

/-- C8: `get_log_url` yields the gitiles `+log` URL for googlesource hosts,
the github `compare` URL with trailing slashes and a `.git` suffix stripped
first, and no URL for any other host, using twelve-character hash prefixes. -/
theorem get_log_url_known_hosts (url head tot : String) :
    (matchGooglesource url = true →
      get_log_url url head tot =
        some (url ++ "/+log/" ++ pyTake head 12 ++ ".." ++ pyTake tot 12)) ∧
    (pyStartswith url "https://github.com/" = true →
      get_log_url url head tot =
        some ((if pyEndswith (pyRstripChar url '/') ".git" then
            pyDropRight (pyRstripChar url '/') 4
          else pyRstripChar url '/') ++
          "/compare/" ++ pyTake head 12 ++ "..." ++ pyTake tot 12)) ∧
    (matchGooglesource url = false → pyStartswith url "https://github.com/" = false →
      get_log_url url head tot = none) := by
  refine ⟨fun h => by simp [get_log_url, h], fun h => ?_, fun h₁ h₂ => by
    simp [get_log_url, h₁, h₂]⟩
  simp [get_log_url, github_prefix_not_googlesource url h, h]

/-- Witness for C8: the three host shapes at concrete URLs, including a github
URL carrying both a trailing slash and a `.git` suffix. -/
theorem get_log_url_known_hosts_witness :
    get_log_url "https://chromium.googlesource.com/v8/v8.git"
        "aaaabbbbccccdddd" "1111222233334444" =
      some "https://chromium.googlesource.com/v8/v8.git/+log/aaaabbbbcccc..111122223333" ∧
    get_log_url "https://github.com/foo/bar.git/" "aaaabbbbccccdddd" "1111222233334444" =
      some "https://github.com/foo/bar/compare/aaaabbbbcccc...111122223333" ∧
    get_log_url "http://example.com/repo" "aaaabbbbccccdddd" "1111222233334444" = none :=
  ⟨((get_log_url_known_hosts "https://chromium.googlesource.com/v8/v8.git"
      "aaaabbbbccccdddd" "1111222233334444").1 (by decide)).trans (by decide),
   ((get_log_url_known_hosts "https://github.com/foo/bar.git/"
      "aaaabbbbccccdddd" "1111222233334444").2.1 (by decide)).trans (by decide),
   (get_log_url_known_hosts "http://example.com/repo"
      "aaaabbbbccccdddd" "1111222233334444").2.2 (by decide) (by decide)⟩

/-! ## Claims C6 and C4: the finalizer -/

/-- The checkout loop issues only checkout operations. -/
theorem finalize_checkouts_ops_no_commit (env : GitEnv)
    (vals : List (String × String × String)) :
    ((finalize_checkouts env vals).1.all fun op => !(isCommitOp op)) = true := by
  induction vals with
  | nil => rfl
  | cons v rest ih =>
    obtain ⟨hd, rt, fd⟩ := v
    by_cases h : env.checkoutOk rt fd
    · simp only [finalize_checkouts, h, if_true, List.all_cons, Bool.and_eq_true]
      exact ⟨rfl, ih⟩
    · simp only [finalize_checkouts, h]
      rfl

/-- If some planned checkout fails, the checkout loop reports failure. -/
theorem finalize_checkouts_fail (env : GitEnv)
    (vals : List (String × String × String))
    (h : ∃ v ∈ vals, env.checkoutOk v.2.1 v.2.2 = false) :
    (finalize_checkouts env vals).2 = false := by
  induction vals with
  | nil => simp at h
  | cons v rest ih =>
    obtain ⟨hd, rt, fd⟩ := v
    by_cases hok : env.checkoutOk rt fd
    · have hrest : ∃ v ∈ rest, env.checkoutOk v.2.1 v.2.2 = false := by
        obtain ⟨w, hw, hwf⟩ := h
        rcases List.mem_cons.mp hw with heq | hmem
        · subst heq
          simp [hok] at hwf
        · exact ⟨w, hmem, hwf⟩
      simp [finalize_checkouts, hok, ih hrest]
    · simp [finalize_checkouts, hok]

/-- If every planned checkout succeeds, the checkout loop runs them all in
the given order. -/
theorem finalize_checkouts_all_ok (env : GitEnv)
    (vals : List (String × String × String))
    (h : ∀ v ∈ vals, env.checkoutOk v.2.1 v.2.2 = true) :
    finalize_checkouts env vals =
      (vals.map (fun v => GitOp.checkout v.2.1 v.2.2), true) := by
  induction vals with
  | nil => rfl
  | cons v rest ih =>
    obtain ⟨hd, rt, fd⟩ := v
    have hok : env.checkoutOk rt fd = true := h _ (List.mem_cons_self _ _)
    have hrest := ih (fun w hw => h w (List.mem_cons_of_mem _ hw))
    simp [finalize_checkouts, hok, hrest]

/-- Checkout pairs distribute over appended traces. -/
theorem checkoutPairs_append (a b : List GitOp) :
    checkoutPairs (a ++ b) = checkoutPairs a ++ checkoutPairs b :=
  List.filterMap_append a b _

/-- Checkout pairs of a pure checkout trace. -/
theorem checkoutPairs_of_checkouts (vals : List (String × String × String)) :
    checkoutPairs (vals.map (fun v => GitOp.checkout v.2.1 v.2.2)) =
      vals.map (fun v => (v.2.1, v.2.2)) := by
  induction vals with
  | nil => rfl
  | cons v rest ih =>
    simp only [List.map_cons, checkoutPairs, List.filterMap_cons] at ih ⊢
    rw [ih]

/-- C6: if any checkout of the plan fails, `finalize` stops before the commit
step: its trace contains no commit operation, it fails with
`CalledProcessError`, and `main` maps that to the non-zero exit code 1. -/
theorem checkout_failure_aborts_before_commit (env : GitEnv) (msg cur : String)
    (rolls : List (String × String × String × String))
    (h : ∃ v ∈ rolls, env.checkoutOk v.2.2.1 v.2.2.2 = false) :
    ((finalize env msg cur rolls).1.all fun op => !(isCommitOp op)) = true ∧
    (finalize env msg cur rolls).2 = Except.error PyExc.calledProcess ∧
    exc_exit_code PyExc.calledProcess = 1 := by
  have hw : ∃ w ∈ pySorted tripleLt (rolls.map (fun kv => kv.2)),
      env.checkoutOk w.2.1 w.2.2 = false := by
    obtain ⟨v, hv, hvf⟩ := h
    exact ⟨v.2, (mem_pySorted _ _ _).mpr (List.mem_map_of_mem _ hv), hvf⟩
  have h2 := finalize_checkouts_fail env _ hw
  refine ⟨?_, ?_, rfl⟩ <;>
    simp [finalize, h2, finalize_checkouts_ops_no_commit]

/-- Witness for C6: with a failing checkout, the trace has no commit and the
outcome is `CalledProcessError`. -/
theorem checkout_failure_aborts_before_commit_witness :
    ((finalize ⟨fun _ _ => false, true, true⟩ "msg" "/w"
        [("a", "h", "t", "/r/a")]).1.all fun op => !(isCommitOp op)) = true ∧
    (finalize ⟨fun _ _ => false, true, true⟩ "msg" "/w"
        [("a", "h", "t", "/r/a")]).2 = Except.error PyExc.calledProcess ∧
    exc_exit_code PyExc.calledProcess = 1 :=
  checkout_failure_aborts_before_commit _ "msg" "/w" _
    ⟨("a", "h", "t", "/r/a"), by decide, rfl⟩

/-- Counterexample to C4 as stated: in this two-dependency plan the checkout
sequence of `finalize` is sorted by the `(head, roll_to, full_dir)` value
tuples, which orders dependency `b` (current revision `aaa`) before `a`
(current revision `bbb`), while the lexicographic order of the dependency
paths would check out `a`'s directory first. -/
theorem finalize_checkout_order_counterexample :
    checkoutPairs (finalize ⟨fun _ _ => true, true, true⟩ "m" "/w"
        [("a", "bbb", "t", "/r/a"), ("b", "aaa", "t", "/r/b")]).1 =
      [("t", "/r/b"), ("t", "/r/a")] ∧
    ((pySorted strLt ["a", "b"]).filterMap (fun d =>
      (([("a", ("bbb", "t", "/r/a")), ("b", ("aaa", "t", "/r/b"))].lookup d)).map
        (fun v => (v.2.1, v.2.2)))) = [("t", "/r/a"), ("t", "/r/b")] ∧
    ([("t", "/r/b"), ("t", "/r/a")] : List (String × String)) ≠
      [("t", "/r/a"), ("t", "/r/b")] := by
  decide

/-- C4 amended: when every checkout succeeds, the checkout sequence of
`finalize` follows the ascending lexicographic order of the
`(head, roll_to, full_dir)` value tuples of the plan — Python
`sorted(rolls.values())` — which is deterministic but not in general the
order of the dependency paths. -/
theorem finalize_checkout_order_value_sorted (env : GitEnv) (msg cur : String)
    (rolls : List (String × String × String × String))
    (h : ∀ v ∈ rolls.map (fun kv => kv.2), env.checkoutOk v.2.1 v.2.2 = true) :
    checkoutPairs (finalize env msg cur rolls).1 =
      (pySorted tripleLt (rolls.map (fun kv => kv.2))).map
        (fun v => (v.2.1, v.2.2)) := by
  have hs : ∀ v ∈ pySorted tripleLt (rolls.map (fun kv => kv.2)),
      env.checkoutOk v.2.1 v.2.2 = true :=
    fun v hv => h v ((mem_pySorted _ _ _).mp hv)
  have hall := finalize_checkouts_all_ok env _ hs
  have hfin : (finalize env msg cur rolls).1 =
      (pySorted tripleLt (rolls.map (fun kv => kv.2))).map
        (fun v => GitOp.checkout v.2.1 v.2.2) ++
      (if !env.addOk then [GitOp.addDeps cur]
       else if !env.commitOk then
         [GitOp.addDeps cur, GitOp.writeMsgFile msg, GitOp.commit cur]
       else [GitOp.addDeps cur, GitOp.writeMsgFile msg, GitOp.commit cur,
         GitOp.removeMsgFile]) := by
    simp only [finalize]
    rw [hall]
    by_cases ha : env.addOk <;> by_cases hc : env.commitOk <;> simp [ha, hc]
  rw [hfin, checkoutPairs_append, checkoutPairs_of_checkouts]
  have htail : checkoutPairs
      (if !env.addOk then [GitOp.addDeps cur]
       else if !env.commitOk then
         [GitOp.addDeps cur, GitOp.writeMsgFile msg, GitOp.commit cur]
       else [GitOp.addDeps cur, GitOp.writeMsgFile msg, GitOp.commit cur,
         GitOp.removeMsgFile]) = [] := by
    by_cases ha : env.addOk <;> by_cases hc : env.commitOk <;> simp [ha, hc, checkoutPairs]
  rw [htail, List.append_nil]

/-- Witness for the amended C4 at the counterexample plan. -/
theorem finalize_checkout_order_value_sorted_witness :
    checkoutPairs (finalize ⟨fun _ _ => true, true, true⟩ "m" "/w"
        [("a", "bbb", "t", "/r/a"), ("b", "aaa", "t", "/r/b")]).1 =
      [("t", "/r/b"), ("t", "/r/a")] :=
  (finalize_checkout_order_value_sorted _ "m" "/w" _ (by decide)).trans rfl

/-! ## Claim C1: log trimming -/

/-- Scanning a newline-free chunk followed by a newline emits one part made of
the accumulator and the chunk. -/
theorem splitKeepAux_chunk : ∀ (l : List Char), '\n' ∉ l → ∀ (rest acc : List Char),
    splitKeepAux (l ++ '\n' :: rest) acc =
      ((acc.reverse ++ l) ++ ['\n']) :: splitKeepAux rest []
  | [], _, rest, acc => by simp [splitKeepAux]
  | c :: cs, h, rest, acc => by
    simp only [List.mem_cons, not_or] at h
    have hc : (c == '\n') = false := beq_eq_false_iff_ne.mpr (fun e => h.1 e.symm)
    have ih := splitKeepAux_chunk cs h.2 rest (c :: acc)
    simp only [List.cons_append, splitKeepAux, hc, Bool.false_eq_true, if_false,
      List.append_eq]
    rw [ih]
    simp [List.append_assoc]

/-- Splitting (keeping line ends) a newline-joined, newline-terminated list of
newline-free parts recovers the parts, each with its trailing newline. -/
theorem splitKeepAux_joinNl : ∀ (ls : List (List Char)) (l : List Char),
    '\n' ∉ l → (∀ m ∈ ls, '\n' ∉ m) →
    splitKeepAux (joinSepChars ['\n'] (l :: ls) ++ ['\n']) [] =
      (l :: ls).map (fun m => m ++ ['\n'])
  | [], l, hl, _ => by
    simpa [joinSepChars] using splitKeepAux_chunk l hl [] []
  | m :: ms, l, hl, hms => by
    have ih := splitKeepAux_joinNl ms m (hms m (List.mem_cons_self m ms))
      (fun x hx => hms x (List.mem_cons_of_mem _ hx))
    have hshape : joinSepChars ['\n'] (l :: m :: ms) ++ ['\n'] =
        l ++ '\n' :: (joinSepChars ['\n'] (m :: ms) ++ ['\n']) := by
      simp [joinSepChars, List.append_assoc]
    rw [hshape, splitKeepAux_chunk l hl _ [], ih]
    simp

/-- Appending a newline at the character level is appending it at the string
level. -/
theorem strMk_toList_append_nl (x : String) :
    String.mk (x.toList ++ ['\n']) = x ++ "\n" := by
  apply strExt
  rw [strToList_mk, strToList_append]
  rfl

/-- Splitting the newline-joined, newline-terminated filtered lines (none of
which contains a newline) recovers the lines with their terminators: this is
`logs.splitlines(True)` for `logs = '\n'.join(cleaned_lines) + '\n'`. -/
theorem splitKeep_join (cleaned : List String) (hne : cleaned ≠ [])
    (hnl : ∀ l ∈ cleaned, '\n' ∉ l.toList) :
    pySplitlinesKeep (pyJoinSep "\n" cleaned ++ "\n") =
      cleaned.map (fun l => l ++ "\n") := by
  obtain ⟨c, cs, rfl⟩ := List.exists_cons_of_ne_nil hne
  have hms : ∀ m ∈ cs.map String.toList, '\n' ∉ m := by
    intro m hm
    obtain ⟨x, hx, rfl⟩ := List.mem_map.mp hm
    exact hnl x (List.mem_cons_of_mem _ hx)
  have htl : (pyJoinSep "\n" (c :: cs) ++ "\n").toList =
      joinSepChars ['\n'] (c.toList :: cs.map String.toList) ++ ['\n'] := by
    rw [strToList_append, pyJoinSep, strToList_mk]
    rfl
  unfold pySplitlinesKeep
  rw [htl, splitKeepAux_joinNl (cs.map String.toList) c.toList
    (hnl c (List.mem_cons_self c cs)) hms]
  simp only [List.map_cons, List.map_map]
  rw [strMk_toList_append_nl]
  exact congrArg (List.cons (c ++ "\n"))
    (List.map_congr_left fun x _ => strMk_toList_append_nl x)

/-- Python `n // 2` on a nonnegative value agrees with natural division. -/
theorem pyFloorDiv_natCast_two (n : Nat) :
    pyFloorDiv (n : Int) 2 = ((n / 2 : Nat) : Int) := by
  cases n with
  | zero => rfl
  | succ m => rfl

/-- Python `-n // 2` for positive `n` floors towards negative infinity. -/
theorem pyFloorDiv_negSucc_two (m : Nat) :
    pyFloorDiv (Int.negSucc m) 2 = Int.negSucc (m / 2) := rfl

/-- A nonnegative Python slice bound takes a prefix. -/
theorem pySliceTo_natCast (l : List α) (k : Nat) :
    pySliceTo l ((k : Nat) : Int) = l.take k := rfl

/-- A negative Python slice start keeps a suffix. -/
theorem pySliceFrom_negSucc (l : List α) (k : Nat) :
    pySliceFrom l (Int.negSucc k) = l.drop (l.length - (k + 1)) := rfl

/-- Negating a positive natural cast gives the negative-successor form. -/
theorem neg_natCast_succ (m : Nat) : -(((m + 1 : Nat)) : Int) = Int.negSucc m := rfl

/-- C1: for a cap `N ≥ 1` and filtered lines that contain no newline (as lines
from `splitlines` never do), if the number `L` of filtered lines exceeds `N`,
the emitted body is exactly the first `N / 2` entries, one `(...)` elision
line, and the last `N - N / 2` entries (so `N` entries in all, the remainder
of an odd cap going to the tail); if `L ≤ N` the body is the full joined log
with no elision. -/
theorem log_cap_trimming (N : Int) (cleaned : List String) (hN : 1 ≤ N)
    (hnl : ∀ l ∈ cleaned, '\n' ∉ l.toList) :
    (N < (cleaned.length : Int) →
      trimmed_log N cleaned =
        pyJoin (((cleaned.take (N.toNat / 2)).map (fun l => l ++ "\n")) ++
          ["(...)\n"] ++
          ((cleaned.drop (cleaned.length - (N.toNat - N.toNat / 2))).map
            (fun l => l ++ "\n"))) ∧
      (cleaned.take (N.toNat / 2)).length = N.toNat / 2 ∧
      (cleaned.drop (cleaned.length - (N.toNat - N.toNat / 2))).length =
        N.toNat - N.toNat / 2) ∧
    ((cleaned.length : Int) ≤ N →
      trimmed_log N cleaned = pyJoinSep "\n" cleaned ++ "\n") := by
  constructor
  · intro hlt
    have hNn : ((N.toNat : Nat) : Int) = N := Int.toNat_of_nonneg (by omega)
    obtain ⟨m, hm⟩ : ∃ m, N.toNat = m + 1 := ⟨N.toNat - 1, by omega⟩
    have hlen : N.toNat < cleaned.length := by omega
    have hne : cleaned ≠ [] := List.length_pos.mp (by omega)
    refine ⟨?_, by simp [List.length_take]; omega, by simp [List.length_drop]; omega⟩
    simp only [trimmed_log]
    rw [if_pos hlt, splitKeep_join cleaned hne hnl, ← hNn, hm]
    rw [pyFloorDiv_natCast_two, pySliceTo_natCast, neg_natCast_succ,
      pyFloorDiv_negSucc_two, pySliceFrom_negSucc]
    rw [← List.map_take, ← List.map_drop, List.length_map]
    have hidx : cleaned.length - (m / 2 + 1) =
        cleaned.length - ((m + 1) - (m + 1) / 2) := by omega
    rw [hidx]
    simp [Int.toNat_natCast]
  · intro hle
    simp only [trimmed_log]
    rw [if_neg (by omega)]

/-- Witness for C1: cap 5 (odd) with 7 filtered lines keeps the first two and
the last three around a single elision line. -/
theorem log_cap_trimming_witness :
    trimmed_log 5 ["a", "b", "c", "d", "e", "f", "g"] =
      pyJoin ((["a", "b", "c", "d", "e", "f", "g"].take 2).map (fun l => l ++ "\n") ++
        ["(...)\n"] ++
        (["a", "b", "c", "d", "e", "f", "g"].drop 4).map (fun l => l ++ "\n")) ∧
    trimmed_log 5 ["a", "b", "c", "d", "e", "f", "g"] = "a\nb\n(...)\ne\nf\ng\n" ∧
    trimmed_log 10 ["a", "b", "c"] = "a\nb\nc\n" :=
  ⟨((log_cap_trimming 5 ["a", "b", "c", "d", "e", "f", "g"] (by decide)
      (by decide)).1 (by decide)).1,
   (((log_cap_trimming 5 ["a", "b", "c", "d", "e", "f", "g"] (by decide)
      (by decide)).1 (by decide)).1).trans (by decide),
   ((log_cap_trimming 10 ["a", "b", "c"] (by decide) (by decide)).2
      (by decide)).trans (by decide)⟩



/-! ## String append lemmas for the message-shape claims -/

/-- Rebuilding a string from its characters is the identity. -/
theorem strMk_toList (s : String) : String.mk s.toList = s := by
  cases s
  rfl

/-- String append is associative. -/
theorem strAppend_assoc (a b c : String) : a ++ b ++ c = a ++ (b ++ c) := by
  apply strExt
  simp [strToList_append, List.append_assoc]

/-- The empty string is a right identity. -/
theorem strAppend_empty (s : String) : s ++ "" = s := by
  apply strExt
  simp [strToList_append, show "".toList = [] from rfl]

/-- The empty string is a left identity. -/
theorem strEmpty_append (s : String) : "" ++ s = s := by
  apply strExt
  simp [strToList_append, show "".toList = [] from rfl]

/-- Joining a single part gives the part. -/
theorem pyJoinSep_singleton (sep a : String) : pyJoinSep sep [a] = a := by
  apply strExt
  simp [pyJoinSep, joinSepChars, strToList_mk]

/-- Joining at least two parts starts with the first part and the separator. -/
theorem pyJoinSep_cons₂ (sep a b : String) (rest : List String) :
    pyJoinSep sep (a :: b :: rest) = a ++ sep ++ pyJoinSep sep (b :: rest) := by
  apply strExt
  simp [pyJoinSep, strToList_append, strToList_mk, joinSepChars, List.append_assoc]

/-! ## Claim C2: what `--no-log` and the noise exclusion suppress -/

/-- C2 amended: the per-dependency message always consists of the header, then
the browsable-URL-and-command preamble; the filtered log body is appended
exactly when `--no-log` is unset and `should_show_log` accepts the upstream
URL, so the flag and the noise exclusion (the latter regardless of the flag)
suppress only the body, never the preamble. -/
theorem log_section_body_only_suppressed (dep head roll_to : String)
    (no_log : Bool) (log_limit : Int) (url raw : String) :
    ((!no_log && should_show_log (pyStrip url)) = true →
      generate_commit_message dep head roll_to no_log log_limit url raw =
        gcm_header dep head roll_to raw ++ log_preamble (pyStrip url) head roll_to ++
          trimmed_log log_limit (filtered_log_lines raw)) ∧
    ((!no_log && should_show_log (pyStrip url)) = false →
      generate_commit_message dep head roll_to no_log log_limit url raw =
        gcm_header dep head roll_to raw ++ log_preamble (pyStrip url) head roll_to) ∧
    (should_show_log (pyStrip url) = false →
      generate_commit_message dep head roll_to no_log log_limit url raw =
        gcm_header dep head roll_to raw ++ log_preamble (pyStrip url) head roll_to) := by
  refine ⟨?_, ?_, ?_⟩
  · intro h
    simp only [generate_commit_message, gcm_header, log_preamble, h]
    simp [strAppend_assoc]
  · intro h
    simp only [generate_commit_message, gcm_header, log_preamble, h]
    simp
  · intro h
    have hb : (!no_log && should_show_log (pyStrip url)) = false := by simp [h]
    simp only [generate_commit_message, gcm_header, log_preamble, hb]
    simp

set_option maxRecDepth 8192 in
/-- Counterexample to C2 as stated: with `--no-log` set and no exclusion
firing, the claim says the whole log section (URL, command line and body) is
absent, but the emitted message still carries the command-line preamble — it
equals the header plus the non-empty preamble and contains `$ git log `. -/
theorem log_section_counterexample :
    generate_commit_message "dep" "aaaaaaaaaaaaaaaa" "bbbbbbbbbbbbbbbb" true 100
        "https://example.com/x" "2024-01-02 joe@x.org Fix a" =
      gcm_header "dep" "aaaaaaaaaaaaaaaa" "bbbbbbbbbbbbbbbb"
          "2024-01-02 joe@x.org Fix a" ++
        log_preamble "https://example.com/x" "aaaaaaaaaaaaaaaa" "bbbbbbbbbbbbbbbb" ∧
    log_preamble "https://example.com/x" "aaaaaaaaaaaaaaaa" "bbbbbbbbbbbbbbbb" ≠ "" ∧
    pyContains
      (generate_commit_message "dep" "aaaaaaaaaaaaaaaa" "bbbbbbbbbbbbbbbb" true 100
        "https://example.com/x" "2024-01-02 joe@x.org Fix a") "$ git log " = true ∧
    should_show_log "https://example.com/x" = true := by
  refine ⟨?_, by decide, by decide, by decide⟩
  decide

/-- Witness for the amended C2: for a `webrtc` upstream the exclusion fires
with `--no-log` unset, and the message is exactly header plus preamble. -/
theorem log_section_body_only_suppressed_witness :
    generate_commit_message "dep" "aaaaaaaaaaaaaaaa" "bbbbbbbbbbbbbbbb" false 100
        "https://webrtc.googlesource.com/src" "2024-01-02 joe@x.org Fix a" =
      gcm_header "dep" "aaaaaaaaaaaaaaaa" "bbbbbbbbbbbbbbbb"
          "2024-01-02 joe@x.org Fix a" ++
        log_preamble "https://webrtc.googlesource.com/src" "aaaaaaaaaaaaaaaa"
          "bbbbbbbbbbbbbbbb" :=
  (log_section_body_only_suppressed "dep" "aaaaaaaaaaaaaaaa" "bbbbbbbbbbbbbbbb"
    false 100 "https://webrtc.googlesource.com/src"
    "2024-01-02 joe@x.org Fix a").2.2 (by decide)

/-! ## Claim C9: header format -/

/-- C9: every per-dependency message starts with the header
`Roll <dependency>/ <shortOld>..<shortNew> (<n> commit[s][; <k> trivial rolls])`
followed by a blank line: the short revisions are nine-character prefixes, `n`
counts the log lines before trivial-roll filtering, `k` the filtered lines,
the plural `s` appears exactly when `n > 1`, and the trivial-rolls clause is
present exactly when `k ≠ 0`. -/
theorem header_format (dep head roll_to : String) (no_log : Bool)
    (log_limit : Int) (url raw : String) :
    ∃ rest, generate_commit_message dep head roll_to no_log log_limit url raw =
      "Roll " ++ dep ++ "/ " ++ (pyTake head 9 ++ ".." ++ pyTake roll_to 9) ++
        " (" ++ toString (logLines raw).length ++ " commit" ++
        (if (logLines raw).length > 1 then "s" else "") ++
        (if (logLines raw).length - (filtered_log_lines raw).length != 0 then
          "; " ++ toString ((logLines raw).length - (filtered_log_lines raw).length) ++
            " trivial rolls"
        else "") ++ ")\n\n" ++ rest :=
  ⟨_, rfl⟩

/-! ## Claim C10: aggregated message shape -/

/-- Right-associated decomposition of `gen_commit_msg`: the optional banner,
then the joined sections, then the footer and trailers. -/
theorem gen_commit_msg_decompose (logs : List String) (cmd : String)
    (rev : Option (List String)) (bug : Option String) :
    gen_commit_msg logs cmd rev bug =
      (if logs.length > 1 then
        "Rolling " ++ toString logs.length ++ " dependencies\n\n"
      else "") ++
      (pyJoinSep "\n\n" logs ++ ("\nCreated with:\n  " ++ (cmd ++ ("\n" ++
        ((match rev with
          | some (r :: rs) => "R=" ++ pyJoinSep "," (r :: rs) ++ "\n"
          | _ => "") ++
         (match bug with
          | some b => if b.toList.isEmpty then "" else "\nBug: " ++ b ++ "\n"
          | none => "")))))) := by
  simp only [gen_commit_msg, strAppend_assoc]

/-- C10: with more than one log section the aggregated message opens with the
line `Rolling <N> dependencies` and a blank line before the first section;
with exactly one section it opens directly with that section. -/
theorem aggregated_message_shape (l : String) (ls : List String) (cmd : String)
    (rev : Option (List String)) (bug : Option String) :
    (ls ≠ [] → ∃ r, gen_commit_msg (l :: ls) cmd rev bug =
      "Rolling " ++ toString (l :: ls).length ++ " dependencies\n\n" ++ (l ++ r)) ∧
    (∃ r, gen_commit_msg [l] cmd rev bug = l ++ r) := by
  constructor
  · intro hls
    obtain ⟨m, ms, rfl⟩ := List.exists_cons_of_ne_nil hls
    have hgt : (l :: m :: ms).length > 1 := by
      simp only [List.length_cons]
      omega
    rw [gen_commit_msg_decompose, if_pos hgt, pyJoinSep_cons₂]
    simp only [strAppend_assoc]
    exact ⟨_, rfl⟩
  · have hng : ¬ (([l] : List String).length > 1) := by simp
    rw [gen_commit_msg_decompose, if_neg hng, pyJoinSep_singleton, strEmpty_append]
    exact ⟨_, rfl⟩

/-- Witness for C10: a two-section aggregate opens with the `Rolling 2
dependencies` banner, a single-section aggregate opens with the section. -/
theorem aggregated_message_shape_witness :
    (∃ r, gen_commit_msg ["SecA", "SecB"] "roll-dep a b" none none =
      "Rolling " ++ toString (["SecA", "SecB"] : List String).length ++
        " dependencies\n\n" ++ ("SecA" ++ r)) ∧
    (∃ r, gen_commit_msg ["SecA"] "roll-dep a" none none = "SecA" ++ r) :=
  ⟨(aggregated_message_shape "SecA" ["SecB"] "roll-dep a b" none none).1
      (by decide),
   (aggregated_message_shape "SecA" [] "roll-dep a" none none).2⟩
